import Mathlib

/-!
Shallow embedding of `src/SwimScore.cpp` (GoldenCheetah SwimScore metric family).

The C++ source computes, for a swim activity:
 * `swimming_power` / `swimming_speed` — a cubic drag model and its inverse;
 * `XPowerSwim::compute` — a time-decayed cubic-mean ("normalized") power
   estimate over the activity's speed samples, with gap handling;
 * `XPaceSwim`, `STP`, `SRI`, `SwimScore`, `TriScore` — derived metrics.

Doubles are modelled as exact rationals (ℚ) wherever the source performs only
field operations and comparisons, and as real numbers (ℝ) where a cube root
(`pow(x, 1/3.0)`) occurs.  An operation the source leaves undefined over the
reals — a division by zero, which in IEEE arithmetic produces NaN/Infinity —
is modelled by `Option`: `none` marks that the source performed such a
division.
-/

/-- Activity discipline tag, per the spec's data model (swim/run/bike/other);
the source branches on `ride->isSwim()` and `ride->isRun()`. -/
inductive Discipline where
  | swim
  | run
  | bike
  | other
deriving DecidableEq, Repr

/-- One activity sample: offset seconds (`point->secs`) and instantaneous
speed in km/h (`point->kph`). -/
structure SwimSample where
  secs : ℚ
  kph  : ℚ
deriving DecidableEq, Repr

/-- The slice of `RideFile` that `SwimScore.cpp` reads: discipline, athlete
weight (`getWeight()`), nominal sample interval (`recIntSecs()`), the sample
series (`dataPoints()`), and the per-activity "CV" override tag
(`getTag("CV","0").toInt()`, `none` when the tag is absent). -/
structure RideFile where
  discipline : Discipline
  weight     : ℚ
  recIntSecs : ℚ
  dataPoints : List SwimSample
  tagCV      : Option ℤ
deriving DecidableEq, Repr

/-- Source `ride->isSwim()`. -/
def RideFile.isSwim (r : RideFile) : Bool :=
  decide (r.discipline = Discipline.swim)

/-- Source `ride->isRun()`. -/
def RideFile.isRun (r : RideFile) : Bool :=
  decide (r.discipline = Discipline.run)

/-- Source `swimming_power` (lines 35–40): `(K / ep) * pow(speed, 3)` with
drag factor `K = 0.35 * weight + 2` and propelling efficiency `ep = 0.6`,
over exact rationals. -/
def swimming_power (weight speed : ℚ) : ℚ :=
  let K : ℚ := 0.35 * weight + 2
  let ep : ℚ := 0.6
  (K / ep) * speed ^ 3

/-- Source `swimming_power`, over the reals (for composition with the real
cube root of `swimming_speed`). -/
noncomputable def swimming_powerR (weight speed : ℝ) : ℝ :=
  let K : ℝ := 0.35 * weight + 2
  let ep : ℝ := 0.6
  (K / ep) * speed ^ 3

/-- Source `swimming_speed` (lines 43–48): `pow((ep / K) * power, 1/3.0)`;
the real cube root is `Real.rpow _ (1/3)`. -/
noncomputable def swimming_speed (weight power : ℝ) : ℝ :=
  let K : ℝ := 0.35 * weight + 2
  let ep : ℝ := 0.6
  ((ep / K) * power) ^ ((1 : ℝ) / 3)

/-- Source `EPSILON = 0.1` (line 82), the gap tolerance. -/
def EPSILON : ℚ := 0.1

/-- Source `NEGLIGIBLE = 0.1` (line 83), the decay cut-off. -/
def NEGLIGIBLE : ℚ := 0.1

/-- Source `sampsPerWindow = 25.0 / secsDelta` (line 86). -/
def sampsPerWindow (secsDelta : ℚ) : ℚ := 25 / secsDelta

/-- Source `attenuation = sampsPerWindow / (sampsPerWindow + secsDelta)`
(line 87). -/
def attenuation (secsDelta : ℚ) : ℚ :=
  sampsPerWindow secsDelta / (sampsPerWindow secsDelta + secsDelta)

/-- Source `sampleWeight = secsDelta / (sampsPerWindow + secsDelta)`
(line 88). -/
def sampleWeight (secsDelta : ℚ) : ℚ :=
  secsDelta / (sampsPerWindow secsDelta + secsDelta)

/-- The mutable state of `XPowerSwim::compute`'s loop: `weighted`,
`lastSecs`, `total` (sum of cubes) and `count` (step count). -/
structure XPState where
  weighted : ℚ
  lastSecs : ℚ
  total    : ℚ
  count    : ℕ
deriving DecidableEq, Repr

/-- One iteration of the inner `while` body (lines 99–102):
`weighted *= attenuation; lastSecs += secsDelta; total += pow(weighted, 3);
count++`. -/
def synStep (att secsDelta : ℚ) (s : XPState) : XPState :=
  let w := s.weighted * att
  ⟨w, s.lastSecs + secsDelta, s.total + w ^ 3, s.count + 1⟩

/-- The inner `while` loop (lines 97–103), by structural recursion on a fuel
bound.  Each iteration re-checks the source's condition
`weighted > NEGLIGIBLE && point->secs > lastSecs + secsDelta + EPSILON`. -/
def synLoopFuel (att secsDelta ptSecs : ℚ) : ℕ → XPState → XPState
  | 0, s => s
  | fuel + 1, s =>
      if NEGLIGIBLE < s.weighted ∧ s.lastSecs + secsDelta + EPSILON < ptSecs
      then synLoopFuel att secsDelta ptSecs fuel (synStep att secsDelta s)
      else s

/-- Computable ceiling of a rational, clamped to ℕ (equal to `⌈q⌉.toNat`,
see `ceilFuel_eq` below); used as loop fuel. -/
def ceilFuel (q : ℚ) : ℕ := (-((-q).num / ((-q).den : ℤ))).toNat

/-- The inner `while` loop with its fuel instantiated: when `0 < secsDelta`
the loop condition forces `lastSecs` past `ptSecs` within
`⌈(ptSecs - lastSecs) / secsDelta⌉` iterations, so this fuel never runs out
and the function satisfies exactly the while-loop equations
(`syntheticLoop_of_stop`, `syntheticLoop_of_step` below). -/
def syntheticLoop (att secsDelta ptSecs : ℚ) (s : XPState) : XPState :=
  synLoopFuel att secsDelta ptSecs (ceilFuel ((ptSecs - s.lastSecs) / secsDelta)) s

/-- The body of the `foreach` over `dataPoints` (lines 96–108): run the gap
loop, then `weighted = weighted * attenuation + sampleWeight *
swimming_power(weight, kph/3.6)`, update `lastSecs`, accumulate the cube and
the count. -/
def sampleStep (weight att sw secsDelta : ℚ) (s : XPState) (p : SwimSample) : XPState :=
  let s1 := syntheticLoop att secsDelta p.secs s
  let w := s1.weighted * att + sw * swimming_power weight (p.kph / 3.6)
  ⟨w, p.secs, s1.total + w ^ 3, s1.count + 1⟩

/-- The whole sample loop of `XPowerSwim::compute` (lines 85–109), from the
initial state `weighted = 0, lastSecs = 0, total = 0, count = 0`. -/
def XPowerSwim.computeAux (weight secsDelta : ℚ) (points : List SwimSample) : XPState :=
  points.foldl (sampleStep weight (attenuation secsDelta) (sampleWeight secsDelta) secsDelta)
    ⟨0, 0, 0, 0⟩

/-- Source `XPowerSwim::compute` (lines 70–115).  Outer `none`: the guard
`if (!ride->isSwim()) return;` produced no value.  Inner `none`: the source
reached `xpower = pow(total / count, 1/3.0)` with `count = 0`, an IEEE
division `0.0/0` yielding NaN.  Otherwise the pair is
`(xpower, secs) = (pow(total/count, 1/3), count * secsDelta)`. -/
noncomputable def XPowerSwim.compute (r : RideFile) : Option (Option (ℝ × ℚ)) :=
  if r.isSwim then
    let s := XPowerSwim.computeAux r.weight r.recIntSecs r.dataPoints
    some (if s.count = 0 then none
          else some (((s.total : ℝ) / (s.count : ℝ)) ^ ((1 : ℝ) / 3), (s.count : ℚ) * r.recIntSecs))
  else none

/-- Rational-valued variant of `XPowerSwim.compute` exposing the loop state
before the final cube root: the inner value is `(total / count, count *
secsDelta)`; `none` in the same positions as `XPowerSwim.compute`. -/
def XPowerSwim.computeQ (r : RideFile) : Option (Option (ℚ × ℚ)) :=
  if r.isSwim then
    let s := XPowerSwim.computeAux r.weight r.recIntSecs r.dataPoints
    some (if s.count = 0 then none
          else some (s.total / (s.count : ℚ), (s.count : ℚ) * r.recIntSecs))
  else none

/-- Source `XPaceSwim::compute` (lines 140–161): from the xPower value
`watts`, invert to a speed and return `speed ? (100.0/60.0) / speed : 0.0`;
`none` when the ride is not a swim. -/
noncomputable def XPaceSwim.compute (r : RideFile) (watts : ℝ) : Option ℝ :=
  if r.isSwim then
    let speed := swimming_speed (r.weight : ℝ) watts
    some (if speed = 0 then 0 else (100 / 60) / speed)
  else none

/-- Source `STP::compute` (lines 184–210).  `configCV` models the
date-ranged configured threshold speed `zones->getCV(zoneRange)` guarded by
`zones && zoneRange >= 0` (`none` = not configured).  The body mirrors:
`cv = getTag("CV","0").toInt(); if (!cv && configured) cv = configured;
watts = swimming_power(weight, cv/3.6)`. -/
def STP.compute (r : RideFile) (configCV : Option ℚ) : Option ℚ :=
  if r.isSwim then
    let cv0 : ℚ := ((r.tagCV.getD 0 : ℤ) : ℚ)
    let cv : ℚ := if cv0 = 0 then (match configCV with
                                   | some c => c
                                   | none => cv0)
                  else cv0
    some (swimming_power r.weight (cv / 3.6))
  else none

/-- Source `SRI::compute` (lines 235–253): inputs are the dependency values
`xpower = xPowerSwim->value(true)`, `stp` and `xsecs = xPowerSwim->count()`;
result is `(reli, secs)` with `reli = stp ? xpower / stp : 0`; `none` when
the ride is not a swim. -/
def SRI.compute (r : RideFile) (xpower stp xsecs : ℚ) : Option (ℚ × ℚ) :=
  if r.isSwim then
    some ((if stp = 0 then 0 else xpower / stp), xsecs)
  else none

/-- Source `SwimScore::compute` (lines 274–296): `normWork = xpower * xsecs`,
`rawGOVSS = normWork * sri`, `workInAnHourAtSTP = stp * 3600`,
`score = workInAnHourAtSTP ? rawGOVSS / workInAnHourAtSTP * 100 : 0`;
`none` when the ride is not a swim. -/
def SwimScore.compute (r : RideFile) (xpower xsecs sri stp : ℚ) : Option ℚ :=
  if r.isSwim then
    let normWork := xpower * xsecs
    let rawGOVSS := normWork * sri
    let workInAnHourAtSTP := stp * 3600
    some (if workInAnHourAtSTP = 0 then 0 else rawGOVSS / workInAnHourAtSTP * 100)
  else none

/-- Evaluation-time error taxonomy of the spec (§7): an absent dependency.
The source's `assert(deps.contains(...))` is, per spec §4.2, the
`DependencyMissing` signal. -/
inductive EvalError where
  | dependencyMissing
deriving DecidableEq, Repr

/-- The dependency symbol `TriScore::compute` selects (lines 337–346):
`"swimscore"` for a swim, `"govss"` for a run, `"skiba_bike_score"`
otherwise. -/
def TriScore.selectedSymbol (r : RideFile) : String :=
  if r.isSwim then "swimscore"
  else if r.isRun then "govss"
  else "skiba_bike_score"

/-- Source `TriScore::compute` (lines 332–349): look the selected symbol up
among the dependency values and republish it; an absent dependency
(`assert(deps.contains(...))` failing) signals `DependencyMissing`. -/
def TriScore.compute (r : RideFile) (deps : String → Option ℚ) : Except EvalError ℚ :=
  match deps (TriScore.selectedSymbol r) with
  | some v => Except.ok v
  | none => Except.error EvalError.dependencyMissing

/-! Section: While-loop equations for the gap loop

`syntheticLoop` is the source's `while` loop: it satisfies the two defining
equations of the loop whenever `0 < secsDelta` (the regime in which the C++
loop terminates), so the fuel is an implementation detail, not a semantic
change. -/

/-- Rewriting `ceilFuel` as the integer ceiling. -/
theorem ceilFuel_eq (q : ℚ) : ceilFuel q = (Int.ceil q).toNat := by
  rw [ceilFuel, ← Rat.floor_def, Int.floor_neg, neg_neg]

theorem synLoopFuel_of_stop (att secsDelta ptSecs : ℚ) (fuel : ℕ) (s : XPState)
    (h : ¬(NEGLIGIBLE < s.weighted ∧ s.lastSecs + secsDelta + EPSILON < ptSecs)) :
    synLoopFuel att secsDelta ptSecs fuel s = s := by
  cases fuel with
  | zero => rfl
  | succ n => exact if_neg h

/-- The loop does nothing when the source's `while` condition fails. -/
theorem syntheticLoop_of_stop (att secsDelta ptSecs : ℚ) (s : XPState)
    (h : ¬(NEGLIGIBLE < s.weighted ∧ s.lastSecs + secsDelta + EPSILON < ptSecs)) :
    syntheticLoop att secsDelta ptSecs s = s :=
  synLoopFuel_of_stop _ _ _ _ _ h

/-- The loop performs one `synStep` and continues when the source's `while`
condition holds (for positive `secsDelta`). -/
theorem syntheticLoop_of_step (att secsDelta ptSecs : ℚ) (s : XPState)
    (hd : 0 < secsDelta)
    (h : NEGLIGIBLE < s.weighted ∧ s.lastSecs + secsDelta + EPSILON < ptSecs) :
    syntheticLoop att secsDelta ptSecs s =
      syntheticLoop att secsDelta ptSecs (synStep att secsDelta s) := by
  have hE : (0 : ℚ) < EPSILON := by norm_num [EPSILON]
  have hx : (1 : ℚ) < (ptSecs - s.lastSecs) / secsDelta := by
    rw [one_lt_div hd]
    linarith [h.2]
  have hc2 : 2 ≤ Int.ceil ((ptSecs - s.lastSecs) / secsDelta) := by
    have := Int.lt_ceil.mpr (by exact_mod_cast hx :
      ((1 : ℤ) : ℚ) < (ptSecs - s.lastSecs) / secsDelta)
    omega
  have hstep : (ptSecs - (synStep att secsDelta s).lastSecs) / secsDelta =
      (ptSecs - s.lastSecs) / secsDelta - 1 := by
    rw [synStep]
    field_simp
    ring
  have hfuel : ceilFuel ((ptSecs - s.lastSecs) / secsDelta) =
      ceilFuel ((ptSecs - (synStep att secsDelta s).lastSecs) / secsDelta) + 1 := by
    rw [ceilFuel_eq, ceilFuel_eq, hstep, Int.ceil_sub_one]
    omega
  rw [syntheticLoop, hfuel, synLoopFuel, if_pos h, syntheticLoop]

/-! Section: Claim C3: zero threshold power -/

/-- Shared concrete rides for witnesses. -/
def swimRide : RideFile := ⟨Discipline.swim, 70, 1, [], none⟩

def runRide : RideFile := ⟨Discipline.run, 70, 1, [], none⟩

def bikeRide : RideFile := ⟨Discipline.bike, 70, 1, [], none⟩

/-- C3: for every swim activity and every positive estimator value, when the
computed ThresholdPower is 0 both `SRI::compute` and `SwimScore::compute`
evaluate to 0; their guards (`stp ? … : 0` and `workInAnHourAtSTP ? … : 0`)
take the 0 branch, so the zero threshold is never used as a divisor. -/
theorem sri_swimscore_zero_threshold (r : RideFile) (hsw : r.discipline = Discipline.swim)
    (xpower xsecs : ℚ) (hx : 0 < xpower) :
    SRI.compute r xpower 0 xsecs = some (0, xsecs) ∧
    ∀ sri : ℚ, SwimScore.compute r xpower xsecs sri 0 = some 0 := by
  have hs : r.isSwim = true := by simp [RideFile.isSwim, hsw]
  constructor
  · simp [SRI.compute, hs]
  · intro sri
    simp [SwimScore.compute, hs]

/-- Witness for C3 at a concrete swim ride, estimator value 1, duration 3600. -/
theorem sri_swimscore_zero_threshold_w :
    SRI.compute swimRide 1 0 3600 = some (0, 3600) ∧
    SwimScore.compute swimRide 1 3600 0 0 = some 0 := by
  have h := sri_swimscore_zero_threshold swimRide rfl 1 3600 one_pos
  exact ⟨h.1, h.2 0⟩

/-! Section: Claim C5: one hour at threshold scores 100 -/

/-- C5 counterexample: an activity whose estimator value (0) equals the
computed ThresholdPower (0) with estimator duration 3600 s.  `SRI::compute`
gives relative intensity 0 and `SwimScore::compute` gives score 0, not 100:
the claim fails when the common value is 0, because both guards take their
zero branch. -/
theorem swimscore_threshold_hour_cex :
    SRI.compute swimRide 0 0 3600 = some (0, 3600) ∧
    SwimScore.compute swimRide 0 3600 0 0 = some 0 ∧ (0 : ℚ) ≠ 100 := by
  refine ⟨?_, ?_, by norm_num⟩
  · simp [SRI.compute, swimRide, RideFile.isSwim]
  · simp [SwimScore.compute, swimRide, RideFile.isSwim]

/-- C5 amended: for a swim activity whose estimator value equals a *non-zero*
ThresholdPower and whose estimator duration is 3600 s, feeding `SRI`'s
computed relative intensity into `SwimScore::compute` yields exactly 100. -/
theorem swimscore_threshold_hour (r : RideFile) (hsw : r.discipline = Discipline.swim)
    (xpower stp sri : ℚ) (hx : xpower = stp) (hstp : stp ≠ 0)
    (hsri : SRI.compute r xpower stp 3600 = some (sri, 3600)) :
    SwimScore.compute r xpower 3600 sri stp = some 100 := by
  have hs : r.isSwim = true := by simp [RideFile.isSwim, hsw]
  rw [SRI.compute, if_pos hs, if_neg hstp] at hsri
  have h1 : sri = xpower / stp := by
    injection hsri with h
    exact (congrArg Prod.fst h).symm
  have hd : stp * 3600 ≠ 0 := mul_ne_zero hstp (by norm_num)
  rw [SwimScore.compute, if_pos hs]
  simp only [if_neg hd, h1, hx, div_self hstp, mul_one, div_self hd]
  norm_num

/-- Witness for C5 amended at estimator value = ThresholdPower = 2. -/
theorem swimscore_threshold_hour_w :
    SwimScore.compute swimRide 2 3600 1 2 = some 100 := by
  refine swimscore_threshold_hour swimRide rfl 2 2 1 rfl (by norm_num) ?_
  simp [SRI.compute, swimRide, RideFile.isSwim]

/-! Section: Claim C6: ThresholdPower fallback chain -/

/-- C6: `STP::compute` follows the fallback chain and always produces a
value for a swim activity: the drag-model power of the per-activity "CV"
override tag when present and non-zero; else of the date-ranged configured
threshold speed when configured; else of speed 0, i.e. exactly 0 watts. -/
theorem stp_fallback_chain (r : RideFile) (configCV : Option ℚ)
    (hsw : r.discipline = Discipline.swim) :
    (∀ t : ℤ, r.tagCV = some t → t ≠ 0 →
        STP.compute r configCV = some (swimming_power r.weight ((t : ℚ) / 3.6))) ∧
    (∀ c : ℚ, (r.tagCV = none ∨ r.tagCV = some 0) → configCV = some c →
        STP.compute r configCV = some (swimming_power r.weight (c / 3.6))) ∧
    ((r.tagCV = none ∨ r.tagCV = some 0) → configCV = none →
        STP.compute r configCV = some 0) := by
  have hs : r.isSwim = true := by simp [RideFile.isSwim, hsw]
  refine ⟨?_, ?_, ?_⟩
  · intro t ht htnz
    have : ((t : ℤ) : ℚ) ≠ 0 := Int.cast_ne_zero.mpr htnz
    rw [STP.compute, if_pos hs]
    simp [ht, this]
  · intro c htag hcfg
    subst hcfg
    rw [STP.compute, if_pos hs]
    rcases htag with h | h <;> simp [h]
  · intro htag hcfg
    subst hcfg
    rw [STP.compute, if_pos hs]
    have hz : swimming_power r.weight 0 = 0 := by
      norm_num [swimming_power]
    rcases htag with h | h <;> simp [h, hz]

/-- Witness for C6: all three branches of the fallback chain at concrete
rides (tag 5 overrides; absent tag with configured speed 2; absent tag and
no configuration gives 0). -/
theorem stp_fallback_chain_w :
    STP.compute ⟨Discipline.swim, 70, 1, [], some 5⟩ (some 3) =
      some (swimming_power 70 ((5 : ℚ) / 3.6)) ∧
    STP.compute ⟨Discipline.swim, 70, 1, [], none⟩ (some 2) =
      some (swimming_power 70 ((2 : ℚ) / 3.6)) ∧
    STP.compute ⟨Discipline.swim, 70, 1, [], some 0⟩ none = some 0 := by
  refine ⟨?_, ?_, ?_⟩
  · exact (stp_fallback_chain ⟨Discipline.swim, 70, 1, [], some 5⟩ (some 3) rfl).1 5 rfl
      (by norm_num)
  · exact (stp_fallback_chain ⟨Discipline.swim, 70, 1, [], none⟩ (some 2) rfl).2.1 2
      (Or.inl rfl) rfl
  · exact (stp_fallback_chain ⟨Discipline.swim, 70, 1, [], some 0⟩ none rfl).2.2
      (Or.inr rfl) rfl

/-! Section: Claim C8: TriScore cross-discipline selection -/

/-- C8: `TriScore::compute` republishes the discipline-appropriate score:
the `"swimscore"` value for a swim, the `"govss"` value for a run, the
`"skiba_bike_score"` value otherwise; and when the selected dependency has
no computed value it signals `DependencyMissing`. -/
theorem triscore_selector (r : RideFile) (deps : String → Option ℚ) :
    (r.discipline = Discipline.swim → ∀ v, deps "swimscore" = some v →
        TriScore.compute r deps = Except.ok v) ∧
    (r.discipline = Discipline.run → ∀ v, deps "govss" = some v →
        TriScore.compute r deps = Except.ok v) ∧
    ((r.discipline = Discipline.bike ∨ r.discipline = Discipline.other) →
        ∀ v, deps "skiba_bike_score" = some v →
        TriScore.compute r deps = Except.ok v) ∧
    (deps (TriScore.selectedSymbol r) = none →
        TriScore.compute r deps = Except.error EvalError.dependencyMissing) := by
  refine ⟨?_, ?_, ?_, ?_⟩
  · intro h v hv
    simp [TriScore.compute, TriScore.selectedSymbol, RideFile.isSwim, h, hv]
  · intro h v hv
    simp [TriScore.compute, TriScore.selectedSymbol, RideFile.isSwim, RideFile.isRun, h, hv]
  · intro h v hv
    rcases h with h | h <;>
      simp [TriScore.compute, TriScore.selectedSymbol, RideFile.isSwim, RideFile.isRun, h, hv]
  · intro h
    simp [TriScore.compute, h]

/-- Dependency map holding only a swim score, for the C8 witness. -/
def depsSwimOnly : String → Option ℚ := fun s => if s = "swimscore" then some 42 else none

/-- Empty dependency map, for the C8 witness. -/
def depsEmpty : String → Option ℚ := fun _ => none

/-- Witness for C8: concrete selections for each discipline and the
missing-dependency signal. -/
theorem triscore_selector_w :
    TriScore.compute swimRide depsSwimOnly = Except.ok 42 ∧
    TriScore.compute runRide depsEmpty = Except.error EvalError.dependencyMissing := by
  constructor
  · exact (triscore_selector swimRide depsSwimOnly).1 rfl 42 rfl
  · exact (triscore_selector runRide depsEmpty).2.2.2 rfl

/-! Section: Claim C4: drag-model round trip -/

/-- C4 counterexample: at weight −20 the drag factor `K = 0.35·(−20)+2 = −5`
is negative, so `swimming_speed` takes a real cube-root (`pow(·, 1/3.0)`) of
the negative base `(0.6/−5)·1` — a domain error in the C source (IEEE `pow`
returns NaN there) — and the round trip does not reproduce the power 1: in
the real model the result is negative. -/
theorem swimming_round_trip_cex :
    swimming_powerR (-20) (swimming_speed (-20) 1) ≠ 1 := by
  have hsp : 0 < swimming_speed (-20) 1 := by
    simp only [swimming_speed]
    have hbase : (0.6 / (0.35 * (-20 : ℝ) + 2)) * 1 = -(0.12) := by norm_num
    rw [hbase, Real.rpow_def_of_neg (by norm_num : (-(0.12) : ℝ) < 0)]
    have hc : Real.cos ((1 : ℝ) / 3 * Real.pi) = 1 / 2 := by
      rw [show (1 : ℝ) / 3 * Real.pi = Real.pi / 3 by ring, Real.cos_pi_div_three]
    rw [hc]
    positivity
  have hneg : swimming_powerR (-20) (swimming_speed (-20) 1) < 0 := by
    simp only [swimming_powerR]
    have hcoef : (0.35 * (-20 : ℝ) + 2) / 0.6 < 0 := by norm_num
    exact mul_neg_of_neg_of_pos hcoef (pow_pos hsp 3)
  intro h
  rw [h] at hneg
  norm_num at hneg

/-- C4 amended: for every weight whose drag factor `K = 0.35·weight + 2` is
positive (in particular every non-negative weight) and every non-negative
power `p`, feeding `swimming_speed`'s inverted speed back through
`swimming_power` reproduces `p` exactly in real arithmetic. -/
theorem swimming_round_trip (w p : ℝ) (hK : 0 < 0.35 * w + 2) (hp : 0 ≤ p) :
    swimming_powerR w (swimming_speed w p) = p := by
  simp only [swimming_powerR, swimming_speed]
  have hKne : (0.35 * w + 2) ≠ 0 := ne_of_gt hK
  have hb : (0 : ℝ) ≤ (0.6 / (0.35 * w + 2)) * p := by positivity
  have h3 : (((0.6 / (0.35 * w + 2)) * p) ^ ((1 : ℝ) / 3)) ^ (3 : ℕ) =
      (0.6 / (0.35 * w + 2)) * p := by
    rw [← Real.rpow_natCast (((0.6 / (0.35 * w + 2)) * p) ^ ((1 : ℝ) / 3)) 3,
      ← Real.rpow_mul hb]
    norm_num
  rw [h3]
  field_simp
  ring

/-- Witness for C4 amended at weight 70, power 8. -/
theorem swimming_round_trip_w : swimming_powerR 70 (swimming_speed 70 8) = 8 :=
  swimming_round_trip 70 8 (by norm_num) (by norm_num)

/-! Section: Claim C1: degenerate input to the estimator -/

/-- C1 (evaluating the code at the failing input): for a swim activity with
zero samples the loop never runs, so `count = 0` and the source reaches
`xpower = pow(total / count, 1/3.0)` — the division `0.0/0`, which in IEEE
arithmetic is NaN, not the fallback value 0 the spec requires (the `some
none` marks exactly that division by a zero `count`).  Only the duration
`secs = count * secsDelta = 0` matches the spec. -/
theorem xpowerswim_zero_samples_division :
    (XPowerSwim.computeAux 70 1 []).count = 0 ∧
    XPowerSwim.compute ⟨Discipline.swim, 70, 1, [], none⟩ = some none ∧
    XPowerSwim.computeQ ⟨Discipline.swim, 70, 1, [], none⟩ = some none := by
  refine ⟨rfl, ?_, ?_⟩ <;>
    simp [XPowerSwim.compute, XPowerSwim.computeQ, XPowerSwim.computeAux, RideFile.isSwim]

/-! Section: Claim C2: a 3×Δt gap inserts exactly 2 synthetic steps -/

/-- C2 counterexample: two consecutive samples separated by exactly 3×Δt
(Δt = 1, samples at 0 s and 3 s) with speed 0, so the running `weighted`
value is 0 ≤ NEGLIGIBLE at the gap.  The while condition fails immediately:
no synthetic decay-only step is inserted, and the final step count is 2 (the
two real samples), not the 2 + 2 the claim demands. -/
theorem gap_three_dt_cex :
    (XPowerSwim.computeAux 70 1 [⟨0, 0⟩, ⟨3, 0⟩]).count = 2 ∧
    (XPowerSwim.computeAux 70 1 [⟨0, 0⟩, ⟨3, 0⟩]).count ≠ 2 + 2 := by
  have s1 : sampleStep 70 (attenuation 1) (sampleWeight 1) 1 ⟨0, 0, 0, 0⟩ ⟨0, 0⟩ =
      ⟨0, 0, 0, 1⟩ := by
    simp only [sampleStep]
    rw [syntheticLoop_of_stop _ _ _ _ (by norm_num [NEGLIGIBLE, EPSILON])]
    norm_num [XPState.mk.injEq, swimming_power]
  have s2 : sampleStep 70 (attenuation 1) (sampleWeight 1) 1 ⟨0, 0, 0, 1⟩ ⟨3, 0⟩ =
      ⟨0, 3, 0, 2⟩ := by
    simp only [sampleStep]
    rw [syntheticLoop_of_stop _ _ _ _ (by norm_num [NEGLIGIBLE, EPSILON])]
    norm_num [XPState.mk.injEq, swimming_power]
  have e1 : XPowerSwim.computeAux 70 1 [⟨0, 0⟩, ⟨3, 0⟩] = ⟨0, 3, 0, 2⟩ := by
    rw [XPowerSwim.computeAux, List.foldl_cons, s1, List.foldl_cons, s2, List.foldl_nil]
  rw [e1]
  exact ⟨rfl, by norm_num⟩

/-- C2 amended: when two consecutive samples are separated by exactly 3×Δt,
`Δt` exceeds the tolerance `EPSILON` (0.1), and the running weighted value
exceeds `NEGLIGIBLE` (0.1) both at the gap and after the first decay, the
while loop inserts exactly 2 synthetic decay-only steps — each multiplying
`weighted` by the attenuation, adding no power, and accumulating one cube —
before the second sample is processed. -/
theorem gap_three_dt_two_steps (att secsDelta ptSecs : ℚ) (s : XPState)
    (hd : EPSILON < secsDelta)
    (hpt : ptSecs = s.lastSecs + 3 * secsDelta)
    (h1 : NEGLIGIBLE < s.weighted)
    (h2 : NEGLIGIBLE < s.weighted * att) :
    syntheticLoop att secsDelta ptSecs s =
      ⟨s.weighted * att * att, s.lastSecs + secsDelta + secsDelta,
       s.total + (s.weighted * att) ^ 3 + (s.weighted * att * att) ^ 3,
       s.count + 2⟩ := by
  have hE : EPSILON = (1 : ℚ) / 10 := by norm_num [EPSILON]
  have hd0 : (0 : ℚ) < secsDelta := lt_trans (by norm_num [EPSILON]) hd
  subst hpt
  have hs1 : synStep att secsDelta s =
      ⟨s.weighted * att, s.lastSecs + secsDelta, s.total + (s.weighted * att) ^ 3,
       s.count + 1⟩ := rfl
  have hs2 : synStep att secsDelta
      (⟨s.weighted * att, s.lastSecs + secsDelta, s.total + (s.weighted * att) ^ 3,
        s.count + 1⟩ : XPState) =
      ⟨s.weighted * att * att, s.lastSecs + secsDelta + secsDelta,
       s.total + (s.weighted * att) ^ 3 + (s.weighted * att * att) ^ 3,
       s.count + 2⟩ := rfl
  rw [syntheticLoop_of_step _ _ _ _ hd0 ⟨h1, by rw [hE] at hd ⊢; linarith⟩, hs1]
  rw [syntheticLoop_of_step _ _ _ _ hd0 ⟨h2, by rw [hE] at hd ⊢; linarith⟩, hs2]
  refine syntheticLoop_of_stop _ _ _ _ ?_
  rintro ⟨-, hcon⟩
  rw [hE] at hcon
  linarith

/-- Witness for C2 amended: gap of exactly 3 s at Δt = 1 s with weighted
value 1 and attenuation 25/26 gives exactly the two decayed states. -/
theorem gap_three_dt_two_steps_w :
    syntheticLoop (25 / 26) 1 3 ⟨1, 0, 0, 0⟩ =
      ⟨1 * (25 / 26) * (25 / 26), 0 + 1 + 1,
       0 + (1 * (25 / 26)) ^ 3 + (1 * (25 / 26) * (25 / 26)) ^ 3, 0 + 2⟩ :=
  gap_three_dt_two_steps (25 / 26) 1 3 ⟨1, 0, 0, 0⟩ (by norm_num [EPSILON])
    (by norm_num) (by norm_num [NEGLIGIBLE]) (by norm_num [NEGLIGIBLE])

/-! Section: Claim C7: inapplicable metrics are absent, not zero -/

/-- Modelled from the spec: a MetricDefinition as seen by the Evaluator
(spec §3, §4.2) — symbol, applicability predicate over the activity, and a
compute function receiving the result set built so far (its declared
dependencies); `none` means no value was produced.  The Evaluator itself is
not part of `src/SwimScore.cpp`. -/
structure MetricDef (R V : Type) where
  symbol : String
  applicable : R → Bool
  compute : R → List (String × V) → Option V

/-- Modelled from the spec: the Evaluator's plan loop (spec §4.2) — iterate
the resolved plan in order; if `applicable(activity)` is false, no value is
produced — absence, not zero, and not an error; otherwise the compute
function may add a value under the metric's symbol. -/
def Evaluator.runAux {R V : Type} (r : R) :
    List (MetricDef R V) → List (String × V) → List (String × V)
  | [], rs => rs
  | d :: rest, rs =>
      Evaluator.runAux r rest
        (if d.applicable r then
          match d.compute r rs with
          | some v => rs ++ [(d.symbol, v)]
          | none => rs
         else rs)

/-- Modelled from the spec: `Evaluator.compute(activity)` (spec §4.2)
starting from the empty result set. -/
def Evaluator.run {R V : Type} (plan : List (MetricDef R V)) (r : R) : List (String × V) :=
  Evaluator.runAux r plan []

theorem Evaluator.runAux_not_mem {R V : Type} (r : R) (sym : String)
    (plan : List (MetricDef R V)) (rs : List (String × V))
    (hplan : ∀ d ∈ plan, d.symbol = sym → d.applicable r = false)
    (hrs : sym ∉ rs.map Prod.fst) :
    sym ∉ (Evaluator.runAux r plan rs).map Prod.fst := by
  induction plan generalizing rs with
  | nil => exact hrs
  | cons d rest ih =>
      rw [Evaluator.runAux]
      refine ih _ (fun d' hd' => hplan d' (List.mem_cons_of_mem _ hd')) ?_
      by_cases hap : d.applicable r = true
      · have hsym : d.symbol ≠ sym := by
          intro he
          have := hplan d (List.mem_cons_self _ _) he
          rw [this] at hap
          exact Bool.false_ne_true hap
        cases hcomp : d.compute r rs with
        | none => simpa [hap, hcomp] using hrs
        | some v =>
            simp only [hap, if_true, hcomp, List.map_append, List.mem_append]
            rintro (h | h)
            · exact hrs h
            · simp at h
              exact hsym h.symm
      · simpa [hap] using hrs

/-- The XPowerSwim metric as a plan entry: symbol `"swimscore_xpower"`
(source line 60), applicability `isRelevantForRide`, i.e. `ride->isSwim`
(line 116), and the rational-valued compute. -/
def XPowerSwim.metricDef : MetricDef RideFile (Option (ℚ × ℚ)) :=
  ⟨"swimscore_xpower", RideFile.isSwim, fun r _ => XPowerSwim.computeQ r⟩

/-- C7: for every activity whose discipline is not swim, each swim-specific
metric's compute returns immediately and produces no value (`none`, totally
— not an error), and, in the spec-modelled Evaluator, the symbol of any
plan entry gated on `ride->isSwim` is absent from the result set rather
than present with value zero. -/
theorem swim_metrics_absent (r : RideFile) (hns : r.discipline ≠ Discipline.swim) :
    XPowerSwim.compute r = none ∧
    (∀ watts : ℝ, XPaceSwim.compute r watts = none) ∧
    (∀ configCV : Option ℚ, STP.compute r configCV = none) ∧
    (∀ xpower stp xsecs : ℚ, SRI.compute r xpower stp xsecs = none) ∧
    (∀ xpower xsecs sri stp : ℚ, SwimScore.compute r xpower xsecs sri stp = none) ∧
    (∀ (V : Type) (plan : List (MetricDef RideFile V)) (sym : String),
        (∀ d ∈ plan, d.symbol = sym → d.applicable = RideFile.isSwim) →
        sym ∉ (Evaluator.run plan r).map Prod.fst) := by
  have hs : r.isSwim = false := by simp [RideFile.isSwim, hns]
  refine ⟨by simp [XPowerSwim.compute, hs], fun watts => by simp [XPaceSwim.compute, hs],
    fun configCV => by simp [STP.compute, hs], fun xp st xs => by simp [SRI.compute, hs],
    fun xp xs sri st => by simp [SwimScore.compute, hs], ?_⟩
  intro V plan sym hplan
  refine Evaluator.runAux_not_mem r sym plan [] (fun d hd he => ?_) (by simp)
  rw [hplan d hd he]
  exact hs

/-- Witness for C7 at a concrete bike ride: all five computes produce no
value and the result set of a plan holding the XPowerSwim definition does
not contain its symbol. -/
theorem swim_metrics_absent_w :
    XPowerSwim.compute bikeRide = none ∧
    XPaceSwim.compute bikeRide 5 = none ∧
    STP.compute bikeRide none = none ∧
    SRI.compute bikeRide 1 1 1 = none ∧
    SwimScore.compute bikeRide 1 1 1 1 = none ∧
    "swimscore_xpower" ∉ (Evaluator.run [XPowerSwim.metricDef] bikeRide).map Prod.fst := by
  have h := swim_metrics_absent bikeRide (by simp [bikeRide])
  exact ⟨h.1, h.2.1 5, h.2.2.1 none, h.2.2.2.1 1 1 1, h.2.2.2.2.1 1 1 1 1,
    h.2.2.2.2.2 (Option (ℚ × ℚ)) [XPowerSwim.metricDef] "swimscore_xpower"
      (by
        intro d hd _
        simp only [List.mem_singleton] at hd
        subst hd
        rfl)⟩

/-! Section: Claim C9: steady-state convergence of the estimator -/

/-- Constant-speed input: `n` samples at seconds 0, 1, …, n−1, all at `kph`
km/h (nominal interval 1 s, no gaps). -/
def constSamples (kph : ℚ) (n : ℕ) : List SwimSample :=
  (List.range n).map (fun (k : ℕ) => ⟨(k : ℚ), kph⟩)

/-- Closed form of the estimator loop on constant-speed input at Δt = 1:
with attenuation a = 25/26 and sample weight 1/26 = 1 − a, after `n`
samples the weighted value is `P·(1 − aⁿ)` for `P` the constant instant
power, the cube total is the sum of the cubes of these partial values, and
the count is `n` (the gap loop never fires since consecutive samples are
1 s apart). -/
theorem computeAux_const (weight kph : ℚ) (n : ℕ) :
    XPowerSwim.computeAux weight 1 (constSamples kph n) =
      ⟨swimming_power weight (kph / 3.6) * (1 - (25 / 26 : ℚ) ^ n),
       if n = 0 then 0 else (n : ℚ) - 1,
       ∑ j ∈ Finset.range n,
         (swimming_power weight (kph / 3.6) * (1 - (25 / 26 : ℚ) ^ (j + 1))) ^ 3,
       n⟩ := by
  have hatt : attenuation 1 = 25 / 26 := by norm_num [attenuation, sampsPerWindow]
  have hsw : sampleWeight 1 = 1 / 26 := by norm_num [sampleWeight, sampsPerWindow]
  induction n with
  | zero => simp [constSamples, XPowerSwim.computeAux]
  | succ n ih =>
      have hexp : constSamples kph (n + 1) = constSamples kph n ++ [⟨(n : ℚ), kph⟩] := by
        rw [constSamples, constSamples, List.range_succ, List.map_append, List.map_singleton]
      rw [hexp, XPowerSwim.computeAux, List.foldl_append]
      rw [show List.foldl (sampleStep weight (attenuation 1) (sampleWeight 1) 1)
            ⟨0, 0, 0, 0⟩ (constSamples kph n) = XPowerSwim.computeAux weight 1 (constSamples kph n)
          from rfl, ih]
      rw [List.foldl_cons, List.foldl_nil]
      have hstop : syntheticLoop (attenuation 1) 1 (⟨(n : ℚ), kph⟩ : SwimSample).secs
          (⟨swimming_power weight (kph / 3.6) * (1 - (25 / 26 : ℚ) ^ n),
            if n = 0 then 0 else (n : ℚ) - 1,
            ∑ j ∈ Finset.range n,
              (swimming_power weight (kph / 3.6) * (1 - (25 / 26 : ℚ) ^ (j + 1))) ^ 3,
            n⟩ : XPState) = _ := syntheticLoop_of_stop _ _ _ _ (by
        rintro ⟨-, hcon⟩
        simp only [EPSILON] at hcon
        by_cases hn : n = 0
        · subst hn
          norm_num at hcon
        · rw [if_neg hn] at hcon
          norm_num at hcon)
      rw [sampleStep, hstop]
      have hw : (swimming_power weight (kph / 3.6) * (1 - (25 / 26 : ℚ) ^ n)) * attenuation 1 +
          sampleWeight 1 * swimming_power weight ((⟨(n : ℚ), kph⟩ : SwimSample).kph / 3.6) =
          swimming_power weight (kph / 3.6) * (1 - (25 / 26 : ℚ) ^ (n + 1)) := by
        rw [hatt, hsw]
        ring
      simp only [XPState.mk.injEq]
      refine ⟨hw, ?_, ?_, trivial⟩
      · rw [if_neg (Nat.succ_ne_zero n)]
        push_cast
        ring
      · rw [Finset.sum_range_succ, hw]

theorem sum_att_pow_le (n : ℕ) : ∑ j ∈ Finset.range n, (25 / 26 : ℚ) ^ (j + 1) ≤ 25 := by
  have hsucc : ∑ j ∈ Finset.range n, (25 / 26 : ℚ) ^ (j + 1) =
      (25 / 26) * ∑ j ∈ Finset.range n, (25 / 26 : ℚ) ^ j := by
    rw [Finset.mul_sum]
    exact Finset.sum_congr rfl (fun j _ => pow_succ' _ _)
  rw [hsucc, geom_sum_eq (by norm_num : (25 / 26 : ℚ) ≠ 1) n]
  have hp0 : (0 : ℚ) ≤ (25 / 26 : ℚ) ^ n := pow_nonneg (by norm_num) n
  have heq : (25 / 26 : ℚ) * (((25 / 26 : ℚ) ^ n - 1) / ((25 / 26 : ℚ) - 1)) =
      25 * (1 - (25 / 26 : ℚ) ^ n) := by
    field_simp
    ring
  rw [heq]
  linarith

theorem sum_att_sq_pow_ge (n : ℕ) (hn : 40 ≤ n) :
    (2375 / 204 : ℚ) ≤ ∑ j ∈ Finset.range n, (625 / 676 : ℚ) ^ (j + 1) := by
  have hsub : ∑ j ∈ Finset.range 40, (625 / 676 : ℚ) ^ (j + 1) ≤
      ∑ j ∈ Finset.range n, (625 / 676 : ℚ) ^ (j + 1) :=
    Finset.sum_le_sum_of_subset_of_nonneg (Finset.range_subset.mpr hn)
      (fun i _ _ => pow_nonneg (by norm_num) _)
  refine le_trans ?_ hsub
  have hsucc : ∑ j ∈ Finset.range 40, (625 / 676 : ℚ) ^ (j + 1) =
      (625 / 676) * ∑ j ∈ Finset.range 40, (625 / 676 : ℚ) ^ j := by
    rw [Finset.mul_sum]
    exact Finset.sum_congr rfl (fun j _ => pow_succ' _ _)
  rw [hsucc, geom_sum_eq (by norm_num : (625 / 676 : ℚ) ≠ 1) 40]
  have hb : (625 / 676 : ℚ) ^ 40 ≤ 1 / 20 := by norm_num
  have heq : (625 / 676 : ℚ) * (((625 / 676 : ℚ) ^ 40 - 1) / ((625 / 676 : ℚ) - 1)) =
      (625 / 51) * (1 - (625 / 676 : ℚ) ^ 40) := by
    field_simp
    ring
  rw [heq]
  linarith

theorem one_sub_cube_le_one (x : ℚ) (h0 : 0 ≤ x) (h1 : x ≤ 1) : (1 - x) ^ 3 ≤ 1 :=
  pow_le_one₀ (by linarith) (by linarith)

theorem one_sub_cube_ge (x : ℚ) (h0 : 0 ≤ x) (h1 : x ≤ 1) :
    1 - 3 * x + 2 * x ^ 2 ≤ (1 - x) ^ 3 := by
  nlinarith [mul_nonneg (mul_nonneg h0 h0) (sub_nonneg.mpr h1)]

/-- Two-sided bound on the attenuation-decay cube sum over one hour of 1 s
samples: `3600 − 3·25 + 2·(2375/204) = 361925/102` from below and `3600`
from above. -/
theorem sumCubes_bounds :
    (361925 / 102 : ℚ) ≤ ∑ j ∈ Finset.range 3600, (1 - (25 / 26 : ℚ) ^ (j + 1)) ^ 3 ∧
    ∑ j ∈ Finset.range 3600, (1 - (25 / 26 : ℚ) ^ (j + 1)) ^ 3 ≤ 3600 := by
  constructor
  · have hstep : ∀ j ∈ Finset.range 3600,
        1 - 3 * (25 / 26 : ℚ) ^ (j + 1) + 2 * (625 / 676 : ℚ) ^ (j + 1) ≤
          (1 - (25 / 26 : ℚ) ^ (j + 1)) ^ 3 := by
      intro j _
      have hx0 : (0 : ℚ) ≤ (25 / 26 : ℚ) ^ (j + 1) := pow_nonneg (by norm_num) _
      have hx1 : (25 / 26 : ℚ) ^ (j + 1) ≤ 1 := pow_le_one₀ (by norm_num) (by norm_num)
      have hsq : ((25 / 26 : ℚ) ^ (j + 1)) ^ 2 = (625 / 676 : ℚ) ^ (j + 1) := by
        rw [pow_right_comm]
        norm_num
      calc 1 - 3 * (25 / 26 : ℚ) ^ (j + 1) + 2 * (625 / 676 : ℚ) ^ (j + 1)
          = 1 - 3 * (25 / 26 : ℚ) ^ (j + 1) + 2 * ((25 / 26 : ℚ) ^ (j + 1)) ^ 2 := by
            rw [hsq]
        _ ≤ (1 - (25 / 26 : ℚ) ^ (j + 1)) ^ 3 := one_sub_cube_ge _ hx0 hx1
    have hsum := Finset.sum_le_sum hstep
    have hsplit : ∑ j ∈ Finset.range 3600,
        (1 - 3 * (25 / 26 : ℚ) ^ (j + 1) + 2 * (625 / 676 : ℚ) ^ (j + 1)) =
        3600 - 3 * ∑ j ∈ Finset.range 3600, (25 / 26 : ℚ) ^ (j + 1)
          + 2 * ∑ j ∈ Finset.range 3600, (625 / 676 : ℚ) ^ (j + 1) := by
      rw [Finset.sum_add_distrib, Finset.sum_sub_distrib, ← Finset.mul_sum, ← Finset.mul_sum]
      simp
    rw [hsplit] at hsum
    have h1 := sum_att_pow_le 3600
    have h2 := sum_att_sq_pow_ge 3600 (by norm_num)
    generalize hS3 : ∑ j ∈ Finset.range 3600, (1 - (25 / 26 : ℚ) ^ (j + 1)) ^ 3 = S3 at hsum ⊢
    generalize hS1 : ∑ j ∈ Finset.range 3600, (25 / 26 : ℚ) ^ (j + 1) = S1 at hsum h1
    generalize hS2 : ∑ j ∈ Finset.range 3600, (625 / 676 : ℚ) ^ (j + 1) = S2 at hsum h2
    clear hsplit hstep hS1 hS2 hS3
    linarith
  · have hstep : ∀ j ∈ Finset.range 3600, (1 - (25 / 26 : ℚ) ^ (j + 1)) ^ 3 ≤ 1 :=
      fun j _ => one_sub_cube_le_one _ (pow_nonneg (by norm_num) _)
        (pow_le_one₀ (by norm_num) (by norm_num))
    have hsum := Finset.sum_le_sum hstep
    simpa using hsum

/-- Evaluation rule for `XPowerSwim.compute` on a swim ride with a non-zero
step count. -/
theorem XPowerSwim.compute_eval (r : RideFile) (st : XPState) (hs : r.isSwim = true)
    (hst : XPowerSwim.computeAux r.weight r.recIntSecs r.dataPoints = st)
    (hc : st.count ≠ 0) :
    XPowerSwim.compute r = some (some (((st.total : ℝ) / (st.count : ℝ)) ^ ((1 : ℝ) / 3),
      (st.count : ℚ) * r.recIntSecs)) := by
  rw [XPowerSwim.compute, if_pos hs]
  simp only [hst]
  rw [if_neg hc]

set_option maxRecDepth 4000

/-- C9: steady state of the time-decayed estimator.  First part: on
constant-speed input at Δt = 1 the running weighted value converges to the
drag-model power `swimming_power(weight, speed)` (the weighted value after
`n` samples is `P·(1 − (25/26)ⁿ)`).  Second part: for mass 70 kg, speed
1.2 m/s (4.32 km/h), Δt = 1 s and 3600 samples, `XPowerSwim::compute`
produces a value within ±0.5 % of 76.3 W and duration exactly 3600 s. -/
theorem xpower_steady_state :
    (∀ weight kph : ℚ,
        Filter.Tendsto
          (fun n : ℕ => ((XPowerSwim.computeAux weight 1 (constSamples kph n)).weighted : ℝ))
          Filter.atTop (nhds ((swimming_power weight (kph / 3.6) : ℚ) : ℝ))) ∧
    (∃ v : ℝ,
        XPowerSwim.compute ⟨Discipline.swim, 70, 1, constSamples 4.32 3600, none⟩ =
          some (some (v, 3600)) ∧ |v - 76.3| ≤ 76.3 * 0.005) := by
  constructor
  · intro weight kph
    have key : ∀ n : ℕ,
        ((XPowerSwim.computeAux weight 1 (constSamples kph n)).weighted : ℝ) =
          ((swimming_power weight (kph / 3.6) : ℚ) : ℝ) * (1 - (25 / 26 : ℝ) ^ n) := by
      intro n
      simp only [computeAux_const]
      push_cast
      ring
    have h1 : Filter.Tendsto (fun n : ℕ => (25 / 26 : ℝ) ^ n) Filter.atTop (nhds 0) :=
      tendsto_pow_atTop_nhds_zero_of_lt_one (by norm_num) (by norm_num)
    have hconst : Filter.Tendsto (fun _ : ℕ => (1 : ℝ)) Filter.atTop (nhds 1) :=
      tendsto_const_nhds
    have h2 := Filter.Tendsto.const_mul (((swimming_power weight (kph / 3.6) : ℚ) : ℝ))
      (Filter.Tendsto.sub hconst h1)
    simpa using Filter.Tendsto.congr (fun n => (key n).symm) h2
  · have hcf := computeAux_const 70 4.32 3600
    have hP : swimming_power 70 ((4.32 : ℚ) / 3.6) = 1908 / 25 := by
      norm_num [swimming_power]
    simp only [hP] at hcf
    obtain ⟨hlo, hhi⟩ := sumCubes_bounds
    have hfact : ∑ j ∈ Finset.range 3600,
        ((1908 / 25 : ℚ) * (1 - (25 / 26 : ℚ) ^ (j + 1))) ^ 3 =
        (1908 / 25 : ℚ) ^ 3 * ∑ j ∈ Finset.range 3600, (1 - (25 / 26 : ℚ) ^ (j + 1)) ^ 3 := by
      rw [Finset.mul_sum]
      exact Finset.sum_congr rfl (fun j _ => mul_pow _ _ 3)
    generalize hS : ∑ j ∈ Finset.range 3600, (1 - (25 / 26 : ℚ) ^ (j + 1)) ^ 3 = S
      at hlo hhi hfact
    generalize hT : ∑ j ∈ Finset.range 3600,
        ((1908 / 25 : ℚ) * (1 - (25 / 26 : ℚ) ^ (j + 1))) ^ 3 = T at hcf hfact
    generalize hW : (1908 / 25 : ℚ) * (1 - (25 / 26 : ℚ) ^ 3600) = W at hcf
    clear hS hT hW
    have h0 : XPowerSwim.compute ⟨Discipline.swim, 70, 1, constSamples 4.32 3600, none⟩ =
        some (some (((T : ℝ) / ((3600 : ℕ) : ℝ)) ^ ((1 : ℝ) / 3),
          ((3600 : ℕ) : ℚ) * 1)) :=
      XPowerSwim.compute_eval _ ⟨W, if (3600 : ℕ) = 0 then 0 else ((3600 : ℕ) : ℚ) - 1, T, 3600⟩
        rfl hcf (by norm_num)
    refine ⟨((T : ℝ) / ((3600 : ℕ) : ℝ)) ^ ((1 : ℝ) / 3), ?_, ?_⟩
    · rw [h0]
      norm_num
    · clear h0 hcf
      have hq_lo : (151837 / 2000 : ℚ) ^ 3 ≤ T / 3600 := by
        rw [hfact]
        linarith
      have hq_hi : T / 3600 ≤ (153363 / 2000 : ℚ) ^ 3 := by
        rw [hfact]
        linarith
      have hcast3 : (((151837 / 2000 : ℚ) ^ 3 : ℚ) : ℝ) = ((151837 / 2000 : ℝ)) ^ (3 : ℕ) := by
        push_cast
        ring
      have hcast3h : (((153363 / 2000 : ℚ) ^ 3 : ℚ) : ℝ) = ((153363 / 2000 : ℝ)) ^ (3 : ℕ) := by
        push_cast
        ring
      have hr_lo : ((151837 / 2000 : ℝ)) ^ (3 : ℕ) ≤ ((T / 3600 : ℚ) : ℝ) := by
        rw [← hcast3]
        exact Rat.cast_le.mpr hq_lo
      have hr_hi : ((T / 3600 : ℚ) : ℝ) ≤ ((153363 / 2000 : ℝ)) ^ (3 : ℕ) := by
        rw [← hcast3h]
        exact Rat.cast_le.mpr hq_hi
      have hdiv : (T : ℝ) / ((3600 : ℕ) : ℝ) = ((T / 3600 : ℚ) : ℝ) := by
        push_cast
        ring
      have h0T : (0 : ℝ) ≤ ((T / 3600 : ℚ) : ℝ) := le_trans (by positivity) hr_lo
      have hv_lo : (151837 / 2000 : ℝ) ≤ ((T : ℝ) / ((3600 : ℕ) : ℝ)) ^ ((1 : ℝ) / 3) := by
        rw [hdiv]
        calc (151837 / 2000 : ℝ) = (((151837 / 2000 : ℝ)) ^ (3 : ℕ)) ^ ((1 : ℝ) / 3) := by
              rw [← Real.rpow_natCast (151837 / 2000 : ℝ) 3,
                ← Real.rpow_mul (by norm_num : (0 : ℝ) ≤ 151837 / 2000)]
              norm_num
          _ ≤ (((T / 3600 : ℚ) : ℝ)) ^ ((1 : ℝ) / 3) :=
              Real.rpow_le_rpow (by positivity) hr_lo (by norm_num)
      have hv_hi : ((T : ℝ) / ((3600 : ℕ) : ℝ)) ^ ((1 : ℝ) / 3) ≤ (153363 / 2000 : ℝ) := by
        rw [hdiv]
        calc (((T / 3600 : ℚ) : ℝ)) ^ ((1 : ℝ) / 3)
            ≤ (((153363 / 2000 : ℝ)) ^ (3 : ℕ)) ^ ((1 : ℝ) / 3) :=
              Real.rpow_le_rpow h0T hr_hi (by norm_num)
          _ = (153363 / 2000 : ℝ) := by
              rw [← Real.rpow_natCast (153363 / 2000 : ℝ) 3,
                ← Real.rpow_mul (by norm_num : (0 : ℝ) ≤ 153363 / 2000)]
              norm_num
      rw [abs_le]
      constructor
      · linarith
      · linarith

/-! Section: Claim C10: invariants of the update loop

`synLoopFuelT`/`sampleStepT`/`computeAuxT` are the same loop as
`synLoopFuel`/`sampleStep`/`computeAux` (see `computeAuxT_fst`), additionally
recording, after every real or synthesized step, the pair (running weighted
value, maximum instantaneous power of the samples processed so far). -/

/-- Trace-recording variant of `synLoopFuel`: also returns the weighted
value after each executed synthetic step, paired with the maximum power `M`
of the samples processed so far. -/
def synLoopFuelT (att secsDelta ptSecs M : ℚ) : ℕ → XPState → XPState × List (ℚ × ℚ)
  | 0, s => (s, [])
  | fuel + 1, s =>
      if NEGLIGIBLE < s.weighted ∧ s.lastSecs + secsDelta + EPSILON < ptSecs then
        ((synLoopFuelT att secsDelta ptSecs M fuel (synStep att secsDelta s)).1,
          ((synStep att secsDelta s).weighted, M) ::
            (synLoopFuelT att secsDelta ptSecs M fuel (synStep att secsDelta s)).2)
      else (s, [])

/-- Trace-recording variant of `sampleStep`: the accumulator is (state,
maximum power so far, trace). -/
def sampleStepT (weight att sw secsDelta : ℚ)
    (acc : XPState × ℚ × List (ℚ × ℚ)) (p : SwimSample) : XPState × ℚ × List (ℚ × ℚ) :=
  let r := synLoopFuelT att secsDelta p.secs acc.2.1
    (ceilFuel ((p.secs - acc.1.lastSecs) / secsDelta)) acc.1
  let P := swimming_power weight (p.kph / 3.6)
  let M := max acc.2.1 P
  let w := r.1.weighted * att + sw * P
  (⟨w, p.secs, r.1.total + w ^ 3, r.1.count + 1⟩, M, acc.2.2 ++ r.2 ++ [(w, M)])

/-- Trace-recording variant of `XPowerSwim.computeAux`. -/
def XPowerSwim.computeAuxT (weight secsDelta : ℚ) (points : List SwimSample) :
    XPState × ℚ × List (ℚ × ℚ) :=
  points.foldl (sampleStepT weight (attenuation secsDelta) (sampleWeight secsDelta) secsDelta)
    (⟨0, 0, 0, 0⟩, 0, [])

theorem synLoopFuelT_fst (att secsDelta ptSecs M : ℚ) :
    ∀ (fuel : ℕ) (s : XPState),
      (synLoopFuelT att secsDelta ptSecs M fuel s).1 = synLoopFuel att secsDelta ptSecs fuel s := by
  intro fuel
  induction fuel with
  | zero => intro s; rfl
  | succ n ih =>
      intro s
      by_cases hc : NEGLIGIBLE < s.weighted ∧ s.lastSecs + secsDelta + EPSILON < ptSecs
      · simp only [synLoopFuelT, synLoopFuel, if_pos hc]
        exact ih _
      · simp only [synLoopFuelT, synLoopFuel, if_neg hc]

theorem sampleStepT_fst (weight att sw secsDelta : ℚ)
    (acc : XPState × ℚ × List (ℚ × ℚ)) (p : SwimSample) :
    (sampleStepT weight att sw secsDelta acc p).1 = sampleStep weight att sw secsDelta acc.1 p := by
  simp only [sampleStepT, sampleStep, syntheticLoop, synLoopFuelT_fst]

/-- The trace-recording loop computes the same state as the plain loop. -/
theorem computeAuxT_fst (weight secsDelta : ℚ) (points : List SwimSample) :
    (XPowerSwim.computeAuxT weight secsDelta points).1 =
      XPowerSwim.computeAux weight secsDelta points := by
  rw [XPowerSwim.computeAuxT, XPowerSwim.computeAux]
  have key : ∀ (pts : List SwimSample) (acc : XPState × ℚ × List (ℚ × ℚ)),
      (pts.foldl (sampleStepT weight (attenuation secsDelta) (sampleWeight secsDelta) secsDelta)
        acc).1 =
      pts.foldl (sampleStep weight (attenuation secsDelta) (sampleWeight secsDelta) secsDelta)
        acc.1 := by
    intro pts
    induction pts with
    | nil => intro acc; rfl
    | cons p rest ih =>
        intro acc
        rw [List.foldl_cons, List.foldl_cons, ← sampleStepT_fst]
        exact ih _
  exact key points _

theorem swimming_power_nonneg (weight speed : ℚ) (hw : 0 ≤ weight) (hs : 0 ≤ speed) :
    0 ≤ swimming_power weight speed := by
  simp only [swimming_power]
  have hK : (0 : ℚ) ≤ (0.35 * weight + 2) / 0.6 := by
    have : (0 : ℚ) ≤ 0.35 * weight := mul_nonneg (by norm_num) hw
    have h2 : (0 : ℚ) ≤ 0.35 * weight + 2 := by linarith
    exact div_nonneg h2 (by norm_num)
  exact mul_nonneg hK (pow_nonneg hs 3)

theorem attenuation_facts (secsDelta : ℚ) (hd : 0 < secsDelta) :
    0 ≤ attenuation secsDelta ∧ attenuation secsDelta ≤ 1 ∧ 0 ≤ sampleWeight secsDelta ∧
    attenuation secsDelta + sampleWeight secsDelta = 1 := by
  have hspw : 0 < sampsPerWindow secsDelta := div_pos (by norm_num) hd
  have hs : 0 < sampsPerWindow secsDelta + secsDelta := by linarith
  refine ⟨div_nonneg hspw.le hs.le, ?_, div_nonneg hd.le hs.le, ?_⟩
  · rw [attenuation, div_le_one hs]
    linarith
  · rw [attenuation, sampleWeight, div_add_div_same, div_self (ne_of_gt hs)]

theorem synLoopFuelT_inv (att secsDelta ptSecs M : ℚ) (ha0 : 0 ≤ att) (ha1 : att ≤ 1) :
    ∀ (fuel : ℕ) (s : XPState), 0 ≤ s.weighted → s.weighted ≤ M →
      0 ≤ (synLoopFuelT att secsDelta ptSecs M fuel s).1.weighted ∧
      (synLoopFuelT att secsDelta ptSecs M fuel s).1.weighted ≤ M ∧
      ∀ e ∈ (synLoopFuelT att secsDelta ptSecs M fuel s).2, 0 ≤ e.1 ∧ e.1 ≤ e.2 := by
  intro fuel
  induction fuel with
  | zero =>
      intro s h0 hM
      exact ⟨h0, hM, by simp [synLoopFuelT]⟩
  | succ n ih =>
      intro s h0 hM
      by_cases hc : NEGLIGIBLE < s.weighted ∧ s.lastSecs + secsDelta + EPSILON < ptSecs
      · have hw0 : 0 ≤ (synStep att secsDelta s).weighted := mul_nonneg h0 ha0
        have hwM : (synStep att secsDelta s).weighted ≤ M :=
          le_trans (mul_le_of_le_one_right h0 ha1) hM
        obtain ⟨i1, i2, i3⟩ := ih (synStep att secsDelta s) hw0 hwM
        simp only [synLoopFuelT, if_pos hc]
        refine ⟨i1, i2, ?_⟩
        intro e he
        rcases List.mem_cons.mp he with he | he
        · subst he
          exact ⟨hw0, hwM⟩
        · exact i3 e he
      · simp only [synLoopFuelT, if_neg hc]
        exact ⟨h0, hM, by simp⟩

theorem sampleStepT_inv (weight att sw secsDelta : ℚ) (p : SwimSample)
    (ha0 : 0 ≤ att) (ha1 : att ≤ 1) (hsw0 : 0 ≤ sw) (hsum : att + sw = 1)
    (hw : 0 ≤ weight) (hk : 0 ≤ p.kph)
    (acc : XPState × ℚ × List (ℚ × ℚ))
    (h1 : 0 ≤ acc.1.weighted) (h2 : acc.1.weighted ≤ acc.2.1) (h3 : 0 ≤ acc.2.1)
    (h4 : ∀ e ∈ acc.2.2, 0 ≤ e.1 ∧ e.1 ≤ e.2) :
    0 ≤ (sampleStepT weight att sw secsDelta acc p).1.weighted ∧
    (sampleStepT weight att sw secsDelta acc p).1.weighted ≤
      (sampleStepT weight att sw secsDelta acc p).2.1 ∧
    0 ≤ (sampleStepT weight att sw secsDelta acc p).2.1 ∧
    ∀ e ∈ (sampleStepT weight att sw secsDelta acc p).2.2, 0 ≤ e.1 ∧ e.1 ≤ e.2 := by
  obtain ⟨i1, i2, i3⟩ := synLoopFuelT_inv att secsDelta p.secs acc.2.1 ha0 ha1
    (ceilFuel ((p.secs - acc.1.lastSecs) / secsDelta)) acc.1 h1 h2
  have hP : 0 ≤ swimming_power weight (p.kph / 3.6) :=
    swimming_power_nonneg _ _ hw (div_nonneg hk (by norm_num))
  have hM3 : 0 ≤ max acc.2.1 (swimming_power weight (p.kph / 3.6)) :=
    le_trans h3 (le_max_left _ _)
  have hc1 : 0 ≤ (synLoopFuelT att secsDelta p.secs acc.2.1
      (ceilFuel ((p.secs - acc.1.lastSecs) / secsDelta)) acc.1).1.weighted * att +
      sw * swimming_power weight (p.kph / 3.6) :=
    add_nonneg (mul_nonneg i1 ha0) (mul_nonneg hsw0 hP)
  have hc2 : (synLoopFuelT att secsDelta p.secs acc.2.1
      (ceilFuel ((p.secs - acc.1.lastSecs) / secsDelta)) acc.1).1.weighted * att +
      sw * swimming_power weight (p.kph / 3.6) ≤
      max acc.2.1 (swimming_power weight (p.kph / 3.6)) := by
    have hA : (synLoopFuelT att secsDelta p.secs acc.2.1
        (ceilFuel ((p.secs - acc.1.lastSecs) / secsDelta)) acc.1).1.weighted * att ≤
        max acc.2.1 (swimming_power weight (p.kph / 3.6)) * att :=
      mul_le_mul_of_nonneg_right (le_trans i2 (le_max_left _ _)) ha0
    have hB : sw * swimming_power weight (p.kph / 3.6) ≤
        sw * max acc.2.1 (swimming_power weight (p.kph / 3.6)) :=
      mul_le_mul_of_nonneg_left (le_max_right _ _) hsw0
    have hE : max acc.2.1 (swimming_power weight (p.kph / 3.6)) * att +
        sw * max acc.2.1 (swimming_power weight (p.kph / 3.6)) =
        max acc.2.1 (swimming_power weight (p.kph / 3.6)) := by
      have : max acc.2.1 (swimming_power weight (p.kph / 3.6)) * att +
          sw * max acc.2.1 (swimming_power weight (p.kph / 3.6)) =
          max acc.2.1 (swimming_power weight (p.kph / 3.6)) * (att + sw) := by
        ring
      rw [this, hsum, mul_one]
    linarith
  simp only [sampleStepT]
  refine ⟨hc1, hc2, hM3, ?_⟩
  intro e he
  rcases List.mem_append.mp he with he | he
  · rcases List.mem_append.mp he with he | he
    · exact h4 e he
    · exact i3 e he
  · rcases List.mem_singleton.mp he with rfl
    exact ⟨hc1, hc2⟩

theorem foldlT_inv (weight att sw secsDelta : ℚ)
    (ha0 : 0 ≤ att) (ha1 : att ≤ 1) (hsw0 : 0 ≤ sw) (hsum : att + sw = 1) (hw : 0 ≤ weight) :
    ∀ (points : List SwimSample) (acc : XPState × ℚ × List (ℚ × ℚ)),
      (∀ p ∈ points, 0 ≤ p.kph) →
      0 ≤ acc.1.weighted → acc.1.weighted ≤ acc.2.1 → 0 ≤ acc.2.1 →
      (∀ e ∈ acc.2.2, 0 ≤ e.1 ∧ e.1 ≤ e.2) →
      ∀ e ∈ (points.foldl (sampleStepT weight att sw secsDelta) acc).2.2,
        0 ≤ e.1 ∧ e.1 ≤ e.2 := by
  intro points
  induction points with
  | nil =>
      intro acc _ _ _ _ h4
      simpa using h4
  | cons p rest ih =>
      intro acc hk h1 h2 h3 h4
      obtain ⟨c1, c2, c3, c4⟩ := sampleStepT_inv weight att sw secsDelta p ha0 ha1 hsw0 hsum hw
        (hk p (List.mem_cons_self _ _)) acc h1 h2 h3 h4
      rw [List.foldl_cons]
      exact ih (sampleStepT weight att sw secsDelta acc p)
        (fun q hq => hk q (List.mem_cons_of_mem _ hq)) c1 c2 c3 c4

/-- C10 counterexample: with negative participant weight −20 kg the drag
factor is −5 and the instantaneous power of a 3.6 km/h (1 m/s) sample is
−25/3 W, so after the first real step the running weighted value is
(1/26)·(−25/3) = −25/78 < 0: the invariant "weighted stays non-negative"
fails without a non-negativity assumption on the weight (and the maximum
power so far is 0 > weighted). -/
theorem estimator_invariant_cex :
    (XPowerSwim.computeAuxT (-20) 1 [⟨0, 3.6⟩]).2.2 = [(-25 / 78, 0)] ∧
    ¬ (0 ≤ (-25 / 78 : ℚ)) := by
  constructor
  · have hp : swimming_power (-20) ((3.6 : ℚ) / 3.6) = -25 / 3 := by
      norm_num [swimming_power]
    have hfuel : ceilFuel (((0 : ℚ) - 0) / 1) = 0 := by
      rw [ceilFuel_eq]
      norm_num
    simp only [XPowerSwim.computeAuxT, List.foldl_cons, List.foldl_nil, sampleStepT, hp]
    rw [hfuel]
    simp only [synLoopFuelT]
    norm_num [attenuation, sampleWeight, sampsPerWindow]
  · norm_num

/-- C10 amended: for every positive Δt the attenuation and the sample weight
sum exactly to 1 (each real step is a convex combination) and each synthetic
decay step only shrinks a non-negative weighted value; hence — additionally
assuming a non-negative participant weight, which the claim omits — for
every input with non-negative speeds, after every real or synthesized step
the running weighted value is non-negative and never exceeds the maximum
instantaneous power of the samples processed so far; and the trace-recording
loop computes exactly the state of `XPowerSwim::compute`'s loop. -/
theorem estimator_invariant :
    (∀ secsDelta : ℚ, 0 < secsDelta →
        attenuation secsDelta + sampleWeight secsDelta = 1) ∧
    (∀ secsDelta w : ℚ, 0 < secsDelta → 0 ≤ w → w * attenuation secsDelta ≤ w) ∧
    (∀ (weight secsDelta : ℚ) (points : List SwimSample),
        0 ≤ weight → 0 < secsDelta → (∀ p ∈ points, 0 ≤ p.kph) →
        ∀ e ∈ (XPowerSwim.computeAuxT weight secsDelta points).2.2, 0 ≤ e.1 ∧ e.1 ≤ e.2) ∧
    (∀ (weight secsDelta : ℚ) (points : List SwimSample),
        (XPowerSwim.computeAuxT weight secsDelta points).1 =
          XPowerSwim.computeAux weight secsDelta points) := by
  refine ⟨?_, ?_, ?_, fun w d pts => computeAuxT_fst w d pts⟩
  · intro d hd
    exact (attenuation_facts d hd).2.2.2
  · intro d w hd hw
    exact mul_le_of_le_one_right hw (attenuation_facts d hd).2.1
  · intro weight d pts hw hd hk
    obtain ⟨a0, a1, s0, hsum⟩ := attenuation_facts d hd
    exact foldlT_inv weight (attenuation d) (sampleWeight d) d a0 a1 s0 hsum hw pts
      (⟨0, 0, 0, 0⟩, 0, []) hk le_rfl le_rfl le_rfl (by simp)

/-- Witness for C10 amended: Δt = 1 s, weight 70 kg, one sample at 3.6 km/h
(instantaneous power 265/6 W): the recorded pair is (265/156, 265/6). -/
theorem estimator_invariant_w :
    attenuation 1 + sampleWeight 1 = 1 ∧
    (70 : ℚ) * attenuation 1 ≤ 70 ∧
    (0 ≤ (265 / 156 : ℚ) ∧ (265 / 156 : ℚ) ≤ 265 / 6) ∧
    (XPowerSwim.computeAuxT 70 1 [⟨0, 3.6⟩]).1 = XPowerSwim.computeAux 70 1 [⟨0, 3.6⟩] := by
  have hmem : ((265 / 156 : ℚ), (265 / 6 : ℚ)) ∈ (XPowerSwim.computeAuxT 70 1 [⟨0, 3.6⟩]).2.2 := by
    have hp : swimming_power 70 ((3.6 : ℚ) / 3.6) = 265 / 6 := by
      norm_num [swimming_power]
    have hfuel : ceilFuel (((0 : ℚ) - 0) / 1) = 0 := by
      rw [ceilFuel_eq]
      norm_num
    simp only [XPowerSwim.computeAuxT, List.foldl_cons, List.foldl_nil, sampleStepT, hp]
    rw [hfuel]
    simp only [synLoopFuelT]
    norm_num [attenuation, sampleWeight, sampsPerWindow]
  refine ⟨estimator_invariant.1 1 (by norm_num),
    estimator_invariant.2.1 1 70 (by norm_num) (by norm_num), ?_,
    estimator_invariant.2.2.2 70 1 [⟨0, 3.6⟩]⟩
  exact estimator_invariant.2.2.1 70 1 [⟨0, 3.6⟩] (by norm_num) (by norm_num)
    (by
      intro p hp
      rcases List.mem_singleton.mp hp with rfl
      norm_num)
    (265 / 156, 265 / 6) hmem
